import Mathlib

/-!
Verification of the asset loading and binary deserialization subsystem of
Purlovia (`src/ue/loader.py`, `src/ue/objects.py`, `src/ue/proxy.py`).

Python strings are modelled as `List Char`; Python dicts (which preserve
insertion order) are modelled as association lists with unique keys, where
setting an existing key updates it in place and setting a new key appends it
at the end.  Python `None`/exception results are modelled with `Option` and
`Except`.
-/

set_option maxRecDepth 4000

namespace Purlovia

/-! ### Python string primitives (over `List Char`)

`str.strip()` strips whitespace from both ends; we model the ASCII whitespace
characters recognised by Python.  `str.lower()` is modelled with
`Char.toLower` (ASCII case folding).  `str.isnumeric()` is true for nonempty
all-numeric strings; we model the digit characters.
-/

def pyIsSpace (c : Char) : Bool :=
  c = ' ' || c = '\t' || c = '\n' || c = '\r' || c = '\x0b' || c = '\x0c'

def pyLStrip (p : Char → Bool) (l : List Char) : List Char := l.dropWhile p

def pyRStrip (p : Char → Bool) (l : List Char) : List Char := (l.reverse.dropWhile p).reverse

/-- Python `s.strip(chars)`: remove characters satisfying `p` from both ends. -/
def pyStrip (p : Char → Bool) (l : List Char) : List Char := pyRStrip p (pyLStrip p l)

/-- Python `s.replace(a, b)` for single characters. -/
def pyReplaceChar (a b : Char) (l : List Char) : List Char :=
  l.map fun c => if c = a then b else c

/-- Python `s.lower()` (ASCII folding). -/
def pyLower (l : List Char) : List Char := l.map Char.toLower

/-- Python `s.isnumeric()` restricted to the decimal digits. -/
def pyIsNumeric (l : List Char) : Bool := !l.isEmpty && l.all Char.isDigit

/-! ### Errors (`src/ue/loader.py` lines 35-56)

The `cause` of an `AssetParseError` is the underlying Python exception,
modelled as an opaque identifier.
-/

inductive AssetLoadError where
  | modNotFound (modid : List Char)
  | assetNotFound (assetname : List Char)
  | exportNotFound (assetname : List Char) (exportName : List Char)
  | assetParseError (assetname : List Char) (cause : Nat)
  deriving DecidableEq, Repr

/-! ### ModResolver (`src/ue/loader.py` lines 59-96)

Abstract bidirectional id↔name mapping; `None` results are `Option.none`.
-/

structure ModResolver where
  get_name_from_id : List Char → Option (List Char)
  get_id_from_name : List Char → Option (List Char)

/-! ### `AssetLoader.clean_asset_name` (`src/ue/loader.py` lines 291-313) -/

/-- Python `if '.' in name: name = name[:name.index('.')]` — remove class name, if present. -/
def cutClassSuffix (name : List Char) : List Char :=
  if name.contains '.' then name.takeWhile (fun c => c ≠ '.') else name

/-- Python `name.strip().strip('/').strip('\\').replace('\\', '/')` -/
def stripName (name : List Char) : List Char :=
  pyReplaceChar '\\' '/'
    (pyStrip (fun c => c = '\\') (pyStrip (fun c => c = '/') (pyStrip pyIsSpace name)))

/-- Convert mod ids to names:
`if len(parts) > 2 and parts[1].lower() == 'mods' and parts[2].isnumeric()`.
Note `if not mod_name: raise ModNotFound(...)` treats the empty string as falsy too. -/
def modSubstitute (resolver : ModResolver) (parts : List (List Char)) :
    Except AssetLoadError (List (List Char)) :=
  if 2 < parts.length ∧ pyLower (parts.getD 1 []) = "mods".toList
      ∧ pyIsNumeric (parts.getD 2 []) = true then
    match resolver.get_name_from_id (parts.getD 2 []) with
    | none => .error (.modNotFound (parts.getD 2 []))
    | some m => if m = [] then .error (.modNotFound (parts.getD 2 [])) else .ok (parts.set 2 m)
  else .ok parts

/-- Python `if parts and parts[0].lower() == 'content': parts[0] = 'Game'` -/
def contentToGame (parts : List (List Char)) : List (List Char) :=
  if parts ≠ [] ∧ pyLower (parts.getD 0 []) = "content".toList then parts.set 0 "Game".toList
  else parts

/-- Source `AssetLoader.clean_asset_name`: cut the class suffix, strip separators,
split into parts, substitute mod ids by names, rewrite `Content` to `Game`, and
rejoin with a leading `/` (`result = '/' + '/'.join(parts)`). -/
def cleanAssetName (resolver : ModResolver) (name0 : List Char) :
    Except AssetLoadError (List Char) :=
  match modSubstitute resolver ((stripName (cutClassSuffix name0)).splitOn '/') with
  | .error e => .error e
  | .ok parts2 => .ok ('/' :: List.intercalate ['/'] (contentToGame parts2))

/-- Canonical shape of a cleaned asset name: a leading `/`, then a body `t`
with no `.` or `\`, neither starting nor ending with `/`, not ending in
whitespace, whose leading segment is not `content` (case-insensitively) and
whose mod segment — when the `/…/Mods/<id>/…` pattern applies — is not numeric.
`cleanAssetName` is the identity on names of this shape. -/
def canonicalAssetName (y : List Char) : Prop :=
  y.head? = some '/' ∧
  '.' ∉ y.tail ∧
  '\\' ∉ y.tail ∧
  y.tail.head? ≠ some '/' ∧
  y.tail.getLast? ≠ some '/' ∧
  (y.tail.getLast?.all fun c => !pyIsSpace c) = true ∧
  pyLower ((y.tail.splitOn '/').getD 0 []) ≠ "content".toList ∧
  ¬(2 < (y.tail.splitOn '/').length ∧ pyLower ((y.tail.splitOn '/').getD 1 []) = "mods".toList
      ∧ pyIsNumeric ((y.tail.splitOn '/').getD 2 []) = true)

instance canonicalAssetName.decidable (y : List Char) : Decidable (canonicalAssetName y) := by
  unfold canonicalAssetName; infer_instance

/-- A mod resolver with no registered mods, used for concrete evaluations. -/
def emptyResolver : ModResolver := ⟨fun _ => none, fun _ => none⟩

/-! ### Containers and parse contexts -/

/-- Modelled from the spec: the parse-context flag.  `ue/context.py` is not
part of the excerpt; per the spec a container records whether it was parsed
fully (deserialised and linked) or only deserialised ("partial"), and an
operation's current context states which of the two it requires. -/
inductive ParseMode where
  | deserialisedOnly
  | fullyLinked
  deriving DecidableEq, Repr

/-- An export table entry (`ExportTableItem` of `ue/asset.py`), restricted to
the fields `AssetLoader._load_asset` reads: `name`, `str(export.namespace)`
(which is `"None"` when the export has no namespace), and the class reference
`export.klass.value`, kept as an opaque identifier. -/
structure ExportTableItem where
  name : List Char
  namespaceStr : List Char
  klass : Nat
  deriving DecidableEq, Repr

/-- A parsed container (`UAsset` of `ue/asset.py`), restricted to the fields
`AssetLoader._load_asset` and the cache managers use. -/
structure UAsset where
  assetname : List Char
  name : List Char
  file_ext : List Char
  exports : List ExportTableItem
  default_export : Option ExportTableItem
  default_class : Option Nat
  mode : ParseMode
  deriving DecidableEq, Repr

/-! ### Python-dict primitives for association lists -/

/-- Python `dict.get(k, None)`. -/
def lookupKey {κ α : Type} [DecidableEq κ] (n : κ) : List (κ × α) → Option α
  | [] => none
  | (k, v) :: rest => if k = n then some v else lookupKey n rest

/-- Python `dict.pop(k, None)`: the mapping left after removing key `k` if present. -/
def popKey {κ α : Type} [DecidableEq κ] (n : κ) (l : List (κ × α)) : List (κ × α) :=
  l.filter fun p => p.1 ≠ n

/-- Python `d[k] = v`: update in place when the key exists, else append at the end
(Python dicts preserve insertion order). -/
def dictSet {κ α : Type} [DecidableEq κ] (k : κ) (v : α) : List (κ × α) → List (κ × α)
  | [] => [(k, v)]
  | (k', v') :: rest => if k' = k then (k, v) :: rest else (k', v') :: dictSet k v rest

/-! ### `UsageBasedCacheManager` (`src/ue/loader.py` lines 146-234) -/

/-- The state of a `UsageBasedCacheManager`: the insertion-ordered dict is an
association list with the most recently used entries at the end.
(`max_memory` and `highest_memory_seen` only feed a commented-out purge branch
and an informational high-water mark and are omitted.) -/
structure UsageCache where
  entries : List (List Char × UAsset)
  max_count : Nat
  keep_count : Nat
  deriving DecidableEq, Repr

def ucEmpty (maxCount keepCount : Nat) : UsageCache := ⟨[], maxCount, keepCount⟩

/-- Source `UsageBasedCacheManager.lookup` (lines 160-172): pop the entry and, if one
was found (`if result:` — a `UAsset` object is truthy), re-insert it at the
most-recently-used end. -/
def ucLookup (c : UsageCache) (name : List Char) : Option UAsset × UsageCache :=
  match lookupKey name c.entries with
  | none => (none, c)
  | some a => (some a, { c with entries := popKey name c.entries ++ [(name, a)] })

/-- Source `UsageBasedCacheManager._purge` (lines 231-234): delete the oldest
`amount` entries (`islice` yields keys in insertion order). -/
def ucPurge (c : UsageCache) (amount : Nat) : UsageCache :=
  { c with entries := c.entries.drop amount }

/-- Source `UsageBasedCacheManager._maybe_purge` (lines 217-229): when the entry
count has reached `max_count`, purge down to `keep_count`.  The memory-based
eviction branch is commented out in the source and the memory high-water mark
does not change the cache. -/
def ucMaybePurge (c : UsageCache) : UsageCache :=
  if c.max_count ≤ c.entries.length then ucPurge c (c.entries.length - c.keep_count) else c

/-- Source `UsageBasedCacheManager.add` (lines 174-187): discard any previous entry
with the same name, append at the most-recently-used end, then maybe purge. -/
def ucAdd (c : UsageCache) (name : List Char) (asset : UAsset) : UsageCache :=
  ucMaybePurge { c with entries := popKey name c.entries ++ [(name, asset)] }

/-- Source `UsageBasedCacheManager.remove` (lines 189-196): pop the entry; when it is
absent only a warning is logged and the cache is left unchanged. -/
def ucRemove (c : UsageCache) (name : List Char) : UsageCache :=
  { c with entries := popKey name c.entries }

/-- Source `UsageBasedCacheManager.get_count` (lines 214-215). -/
def ucGetCount (c : UsageCache) : Nat := c.entries.length

/-- A sequence of `add` operations applied in order. -/
def ucApplyAdds (c : UsageCache) : List (List Char × UAsset) → UsageCache
  | [] => c
  | (n, a) :: rest => ucApplyAdds (ucAdd c n a) rest

/-- The purge trigger inside `add`/`_maybe_purge`: the entry count right after
the insert has reached `max_count`. -/
def ucAddTriggersPurge (c : UsageCache) (name : List Char) (asset : UAsset) : Prop :=
  c.max_count ≤ (popKey name c.entries ++ [(name, asset)]).length

instance ucAddTriggersPurge.decidable (c : UsageCache) (name : List Char) (asset : UAsset) :
    Decidable (ucAddTriggersPurge c name asset) := by
  unfold ucAddTriggersPurge; infer_instance

/-! ### `ContextAwareCacheWrapper` (`src/ue/loader.py` lines 237-264) -/

/-- Modelled from the spec: `UAsset.is_context_satisfied` lives in
`ue/asset.py`, which is not part of the excerpt.  Per the spec (§4.3) a cached
entry that was stored from a deserialise-only ("partial") parse does not
satisfy a request requiring a full parse; every other combination is
satisfied. -/
def isContextSatisfied (stored required : ParseMode) : Bool :=
  match stored, required with
  | .deserialisedOnly, .fullyLinked => false
  | _, _ => true

/-- Source `ContextAwareCacheWrapper.lookup` (lines 241-252), wrapping a
`UsageBasedCacheManager` and with the current parsing context (from
`get_ctx()`) passed explicitly.  The sub-manager lookup runs first — its
recency touch happens regardless — and the context check may then turn the
hit into a miss. -/
def cawLookup (c : UsageCache) (ctx : ParseMode) (name : List Char) :
    Option UAsset × UsageCache :=
  match ucLookup c name with
  | (none, c2) => (none, c2)
  | (some a, c2) => if isContextSatisfied a.mode ctx then (some a, c2) else (none, c2)

/-- Source `ContextAwareCacheWrapper.remove` (lines 257-258): pass through to the
sub-manager. -/
def cawRemove (c : UsageCache) (name : List Char) : UsageCache := ucRemove c name

/-- Source `AssetLoader.__delitem__` (lines 510-513) over the default cache stack
context-aware(usage-ordered): clean the asset name, then remove it from the
cache. -/
def loaderDelItem (resolver : ModResolver) (c : UsageCache) (assetname : List Char) :
    Except AssetLoadError UsageCache :=
  match cleanAssetName resolver assetname with
  | .error e => .error e
  | .ok n => .ok (cawRemove c n)

/-! ### `AssetLoader._load_asset` (`src/ue/loader.py` lines 519-565) -/

/-- The abstract phase outcomes for one asset load: `load_raw_asset`
(lines 475-488, raising `AssetNotFound` before any buffer is acquired, or
yielding a buffer and the matching extension), the `asset.deserialise()`
phase (yielding the export table, or raising some Python exception — kept as
an opaque identifier), and the `asset.link()` phase (yielding the linked
export table or raising).  Only these three steps are fallible inside
`_load_asset`. -/
structure LoadEnv where
  raw : Except (List Char) (Nat × List Char)
  deserialiseResult : Except Nat (List ExportTableItem)
  linkResult : List ExportTableItem → Except Nat (List ExportTableItem)

/-- Exports with no namespace (line 544):
`[export for export in asset.exports.values if str(export.namespace) == 'None']`. -/
def topExports (exports : List ExportTableItem) : List ExportTableItem :=
  exports.filter fun e => e.namespaceStr = "None".toList

/-- BP-style `Default__<assetname>` exports among the top-level ones
(line 547). -/
def defaultMarked (exports : List ExportTableItem) : List ExportTableItem :=
  (topExports exports).filter fun e => "Default__".toList.isPrefixOf e.name

/-- Top-level exports named the same as the asset, case-insensitively
(line 556). -/
def leafMatches (exports : List ExportTableItem) (leafname : List Char) :
    List ExportTableItem :=
  (topExports exports).filter fun e => pyLower e.name = pyLower leafname

/-- Default-export selection (`_load_asset` lines 541-560), applied after
linking.  First the `Default__` rule: the first match in table order is
selected (a warning is logged when there is more than one) and its class is
recorded in `default_class`.  Otherwise the leaf-name fallback: when more
than one export matches, the code logs a warning and — because the assignment
sits in the `else:` of `if len(exports) > 1` — selects nothing; when at most
one matches, `exports[0] if exports else None` is assigned.  Returns
`(default_export, default_class)`. -/
def selectDefaultExport (exports : List ExportTableItem) (leafname : List Char) :
    Option ExportTableItem × Option Nat :=
  match (defaultMarked exports).head? with
  | some e => (some e, some e.klass)
  | none =>
    if 1 < (leafMatches exports leafname).length then (none, none)
    else ((leafMatches exports leafname).head?, none)

/-- One execution of `AssetLoader._load_asset` (lines 519-565) over the
default cache stack, with the phase outcomes taken from `env`.  Returns the
call's result (the parsed container, or the exception it raises), the final
cache, and how many times `mem.release()` ran (the `finally:` at lines
538-539). -/
def loadAsset (env : LoadEnv) (cache : UsageCache) (assetname : List Char)
    (doNotLink : Bool) (cacheResult : Bool) :
    Except AssetLoadError UAsset × UsageCache × Nat :=
  match env.raw with
  | .error name =>
    -- `AssetNotFound` raised inside `load_raw_asset`; no buffer was acquired
    (.error (.assetNotFound name), cache, 0)
  | .ok (_, ext) =>
    -- `asset.name = assetname.split('/')[-1]`, `leafname` likewise (line 541)
    let leafname := (assetname.splitOn '/').getLastD []
    match env.deserialiseResult with
    | .error ex =>
      -- `raise AssetParseError(assetname) from ex`; the finally releases the buffer
      (.error (.assetParseError assetname ex), cache, 1)
    | .ok exports0 =>
      if doNotLink then
        -- `return asset` — early return of the partial result (line 534); the
        -- finally releases the buffer and the cache insert below is skipped
        (.ok { assetname := assetname, name := leafname, file_ext := ext,
               exports := exports0, default_export := none, default_class := none,
               mode := .deserialisedOnly }, cache, 1)
      else
        match env.linkResult exports0 with
        | .error ex =>
          (.error (.assetParseError assetname ex), cache, 1)
        | .ok exports1 =>
          -- success: the finally releases the buffer, then default-export
          -- selection runs and the result is cached (lines 541-565)
          let sel := selectDefaultExport exports1 leafname
          let asset : UAsset :=
            { assetname := assetname, name := leafname, file_ext := ext,
              exports := exports1, default_export := sel.1, default_class := sel.2,
              mode := .fullyLinked }
          (.ok asset, if cacheResult then ucAdd cache assetname asset else cache, 1)

/-- Two top-level exports `foo` and `FOO`, both matching the leaf name `Foo`
case-insensitively and neither carrying the `Default__` marker. -/
def twoLeafExports : List ExportTableItem :=
  [⟨"foo".toList, "None".toList, 1⟩, ⟨"FOO".toList, "None".toList, 2⟩]

/-- A load scenario whose deserialise and link phases succeed with
`twoLeafExports`. -/
def twoLeafEnv : LoadEnv :=
  { raw := .ok (0, ".uasset".toList),
    deserialiseResult := .ok twoLeafExports,
    linkResult := fun e => .ok e }

/-! ### Byte streams (`ue/stream.py` — not in src/)

Modelled from the spec: `MemoryStream` and its read methods live in
`ue/stream.py`, which is not part of the excerpt.  Per the spec (§2, Raw Byte
Loader) the stream is a cursor over an in-memory byte buffer; multi-byte
values are little-endian, reading past the end raises, and `offset += n`
merely moves the cursor.  Float values are kept as their raw 32-bit patterns —
only their presence matters here.
-/

inductive ParseErr where
  | outOfData
  | assertFailed
  deriving DecidableEq, Repr

structure Stream where
  data : List Nat
  offset : Nat
  deriving DecidableEq, Repr

def readBytes (count : Nat) (s : Stream) : Except ParseErr (List Nat × Stream) :=
  if s.offset + count ≤ s.data.length then
    .ok ((s.data.drop s.offset).take count, { s with offset := s.offset + count })
  else .error .outOfData

/-- Little-endian byte list to `Nat`. -/
def leNat (bytes : List Nat) : Nat := bytes.foldr (fun b acc => b + 256 * acc) 0

def readUInt32 (s : Stream) : Except ParseErr (Nat × Stream) :=
  match readBytes 4 s with
  | .error e => .error e
  | .ok (bs, s2) => .ok (leNat bs, s2)

def readBool8 (s : Stream) : Except ParseErr (Bool × Stream) :=
  match readBytes 1 s with
  | .error e => .error e
  | .ok (bs, s2) => .ok (leNat bs ≠ 0, s2)

/-- Python `readFloat()` — the 32-bit pattern is returned undecoded. -/
def readFloat32 (s : Stream) : Except ParseErr (Nat × Stream) := readUInt32 s

/-- Python `self.stream.offset += count` (no bounds check; later reads fail). -/
def skipBytes (count : Nat) (s : Stream) : Stream := { s with offset := s.offset + count }

/-- Modelled from the spec: `StripDataFlags` lives in `ue/coretypes.py`, which
is not part of the excerpt.  Per the spec (§4.2) it is a set of strip-data
flags — server-stripped, editor-stripped, custom-stripped-by-index — read
from the stream; we model the engine's two flag bytes: a global byte (bit 0
editor, bit 1 server) and a class byte tested bitwise for custom stripping. -/
structure StripDataFlags where
  globalFlags : Nat
  classFlags : Nat
  deriving DecidableEq, Repr

def StripDataFlags.deserialise (s : Stream) : Except ParseErr (StripDataFlags × Stream) :=
  match readBytes 2 s with
  | .error e => .error e
  | .ok (bs, s2) => .ok (⟨bs.getD 0 0, bs.getD 1 0⟩, s2)

def StripDataFlags.is_stripped_for_editor (f : StripDataFlags) : Bool := f.globalFlags.testBit 0

def StripDataFlags.is_stripped_for_server (f : StripDataFlags) : Bool := f.globalFlags.testBit 1

def StripDataFlags.is_stripped_for_custom (f : StripDataFlags) (idx : Nat) : Bool :=
  decide (f.classFlags &&& idx ≠ 0)

/-! ### `InstancedStaticMeshComponentObject._deserialise`
(`src/ue/objects.py` lines 16-65) -/

/-- One iteration of the per-LOD loop (lines 19-43). -/
def readLOD (s : Stream) : Except ParseErr Stream :=
  match StripDataFlags.deserialise s with
  | .error e => .error e
  | .ok (strip_flags, s) =>
    -- Light and shadow map references
    let s := if strip_flags.is_stripped_for_server = false then skipBytes 8 s else s
    -- Vertex colorization data
    let colorStep : Except ParseErr Stream :=
      if strip_flags.is_stripped_for_custom 1 = false then
        match readBool8 s with
        | .error e => .error e
        | .ok (has_color_data, s) =>
          if has_color_data then
            match StripDataFlags.deserialise s with
            | .error e => .error e
            | .ok (color_strip, s) =>
              match readUInt32 (skipBytes 4 s) with
              | .error e => .error e
              | .ok (color_num, s) =>
                -- Required for client data to be parsed.
                if 0 < color_num ∧ color_strip.is_stripped_for_server = false then
                  .ok (skipBytes 8 (skipBytes (4 * color_num) s))
                else .ok s
          else .ok s
      else .ok s
    match colorStep with
    | .error e => .error e
    | .ok s =>
      -- Painted vertices: the loop skips 3*4 + 4*4 + 1 bytes per entry
      if strip_flags.is_stripped_for_editor = false then
        match readUInt32 s with
        | .error e => .error e
        | .ok (paint_count, s) => .ok (skipBytes ((3 * 4 + 4 * 4 + 1) * paint_count) s)
      else .ok s

/-- Python `for _ in range(lod_count)` over `readLOD`. -/
def readLODs : Nat → Stream → Except ParseErr Stream
  | 0, s => .ok s
  | n + 1, s =>
    match readLOD s with
    | .error e => .error e
    | .ok s2 => readLODs n s2

/-- The per-instance transform records (lines 51-63): skip 3 rows of the 4x4
matrix, read the translation vector, skip the scale component and the UV
biases. -/
def readInstances : Nat → Stream → Except ParseErr (List (Nat × Nat × Nat))
  | 0, _ => .ok []
  | n + 1, s =>
    match readFloat32 (skipBytes (4 * 3 * 4) s) with
    | .error e => .error e
    | .ok (x, s) =>
      match readFloat32 s with
      | .error e => .error e
      | .ok (y, s) =>
        match readFloat32 s with
        | .error e => .error e
        | .ok (z, s) =>
          match readInstances n (skipBytes 16 (skipBytes 4 s)) with
          | .error e => .error e
          | .ok rest => .ok ((x, y, z) :: rest)

/-- Source `InstancedStaticMeshComponentObject._deserialise` (lines 16-65): the LOD
loop, then `assert self.stream.readUInt32() == 80` (the struct-size integrity
check), then the count-prefixed instance array.  The produced value is the
`visible_instances` field (`self._newField('visible_instances', instances)`,
line 65); on any error no field is produced. -/
def instancedSMCDeserialise (s : Stream) : Except ParseErr (List (Nat × Nat × Nat)) :=
  match readUInt32 s with
  | .error e => .error e
  | .ok (lod_count, s) =>
    match readLODs lod_count s with
    | .error e => .error e
    | .ok s =>
      match readUInt32 s with
      | .error e => .error e
      | .ok (size, s) =>
        if size = 80 then
          match readUInt32 s with
          | .error e => .error e
          | .ok (num_instances, s) =>
            match readInstances num_instances s with
            | .error e => .error e
            | .ok instances => .ok instances
        else .error .assertFailed

/-- The stored struct-size constant the parser reads after the LOD loop and
compares against 80, when the stream reaches that point. -/
def storedStructSize (s : Stream) : Option Nat :=
  match readUInt32 s with
  | .error _ => none
  | .ok (lod_count, s) =>
    match readLODs lod_count s with
    | .error _ => none
    | .ok s =>
      match readUInt32 s with
      | .error _ => none
      | .ok (size, _) => some size

/-! ### `UEProxyStructure` (`src/ue/proxy.py` lines 18-66)

Proxy instances map property names to sparse index→value maps.  The value
type is a parameter (`UEBase` values are opaque here).
-/

/-- The field maps of a proxy instance (`vars(self)`): property name → sparse
index→value map. -/
abbrev ProxyFields (α : Type) : Type := List (List Char × List (Nat × α))

/-- Update the value stored at an existing key, in place. -/
def dictModify {κ α : Type} [DecidableEq κ] (k : κ) (f : α → α) :
    List (κ × α) → List (κ × α)
  | [] => []
  | (k', v) :: rest => if k' = k then (k', f v) :: rest else (k', v) :: dictModify k f rest

/-- Source `UEProxyStructure.__init__` (lines 53-57): each declared default field is
copied (`value = {**default}`) into the fresh instance, so the instance
starts as the type's default set. -/
def proxyInit {α : Type} (defaults : ProxyFields α) : ProxyFields α := defaults

/-- The inner loop of `update`:
`for i, value in field_values.items(): target_field[i] = value`. -/
def applyFieldValues {α : Type} (field_values : List (Nat × α)) (target_field : List (Nat × α)) :
    List (Nat × α) :=
  field_values.foldl (fun fld iv => dictSet iv.1 iv.2 fld) target_field

/-- Source `UEProxyStructure.update` (lines 59-66): for each overridden field, create
an empty map when the field is absent from the instance
(`if name not in target_dict: target_dict[name] = dict()`), then write every
override value at its index.  A total function — the tolerant merge never
fails. -/
def proxyUpdate {α : Type} (inst : ProxyFields α) (values : ProxyFields α) :
    ProxyFields α :=
  values.foldl
    (fun td nv =>
      let td2 := if (lookupKey nv.1 td).isNone then dictSet nv.1 ([] : List (Nat × α)) td else td
      dictModify nv.1 (applyFieldValues nv.2) td2)
    inst

/-! ### `find_caseinsensitive_path_match` (`src/ue/loader.py` lines 581-607) -/

/-- A filesystem path, as its segments. -/
abbrev FsPath : Type := List (List Char)

/-- The filesystem oracle: whether a path exists, and the entry names
`path.iterdir()` yields, in iteration order. -/
structure FileSystem where
  pathExists : FsPath → Bool
  dirEntries : FsPath → List (List Char)

/-- Source `find_caseinsensitive_path_match` (lines 585-607), with the module-global
`path_match_cache` passed in and the possibly-extended memo returned.  The
memo's values are plain paths: `PATH_NO_MATCH` is only the lookup default and
`None` is never stored.  When the path exists as-is it is memoized to itself;
when a case-insensitive sibling matches (`found.name.lower() == name`), the
first match is memoized; when nothing matches the function returns `None`
without touching the memo. -/
def findCaseInsensitivePathMatch (fs : FileSystem) (memo : List (FsPath × FsPath))
    (path : FsPath) : Option FsPath × List (FsPath × FsPath) :=
  match lookupKey path memo with
  | some cached => (some cached, memo)
  | none =>
    if fs.pathExists path then (some path, dictSet path path memo)
    else
      match (fs.dirEntries (List.dropLast path)).find?
          (fun found => pyLower found = pyLower (List.getLastD path [])) with
      | some found =>
        (some (List.dropLast path ++ [found]),
         dictSet path (List.dropLast path ++ [found]) memo)
      | none => (none, memo)

/-- A filesystem with no files at all. -/
def emptyFs : FileSystem := ⟨fun _ => false, fun _ => []⟩

/-- A filesystem holding exactly one file, `Foo.uasset`, in its root. -/
def oneFileFs : FileSystem :=
  ⟨fun p => p = ["Foo.uasset".toList],
   fun p => if p = [] then ["Foo.uasset".toList] else []⟩

/-- A concrete fully-linked container used in witnesses. -/
def sampleAsset : UAsset :=
  { assetname := [], name := [], file_ext := [], exports := [],
    default_export := none, default_class := none, mode := .fullyLinked }

/-- A concrete deserialise-only (partial) container used in witnesses. -/
def samplePartialAsset : UAsset := { sampleAsset with mode := .deserialisedOnly }

/-! ## Theorems -/

/-! ### Lemmas about the Python string primitives -/

theorem pyDropWhile_eq_self (p : Char → Bool) (l : List Char)
    (h : ∀ c, l.head? = some c → p c = false) : l.dropWhile p = l := by
  cases l with
  | nil => rfl
  | cons a t => rw [List.dropWhile_cons, h a rfl]; simp

theorem pyRStrip_eq_self (p : Char → Bool) (l : List Char)
    (h : ∀ c, l.getLast? = some c → p c = false) : pyRStrip p l = l := by
  unfold pyRStrip
  rw [pyDropWhile_eq_self p l.reverse fun c hc => h c (by rw [← List.head?_reverse]; exact hc)]
  exact l.reverse_reverse

theorem pyStrip_eq_self (p : Char → Bool) (l : List Char)
    (h1 : ∀ c, l.head? = some c → p c = false)
    (h2 : ∀ c, l.getLast? = some c → p c = false) : pyStrip p l = l := by
  unfold pyStrip pyLStrip
  rw [pyDropWhile_eq_self p l h1, pyRStrip_eq_self p l h2]

theorem pyReplaceChar_eq_self (a b : Char) (l : List Char) (h : a ∉ l) :
    pyReplaceChar a b l = l := by
  unfold pyReplaceChar
  induction l with
  | nil => rfl
  | cons c t ih =>
    have hc : ¬(c = a) := fun hca => h (by rw [← hca]; exact List.mem_cons_self c t)
    simp only [List.map_cons, if_neg hc, List.cons.injEq, true_and]
    exact ih fun hm => h (List.mem_cons_of_mem _ hm)

theorem pyContains_eq_false {a : Char} {l : List Char} (h : a ∉ l) : l.contains a = false := by
  simp [List.contains, List.elem_iff, h]

/-! ### `cleanAssetName` is the identity on canonical names -/

theorem stripName_slash_cons (t : List Char)
    (hbs : '\\' ∉ t) (hth : t.head? ≠ some '/') (htl : t.getLast? ≠ some '/')
    (htlsp : (t.getLast?.all fun c => !pyIsSpace c) = true) :
    stripName ('/' :: t) = t := by
  unfold stripName
  have hlast : ∀ c, ('/' :: t).getLast? = some c → pyIsSpace c = false := by
    intro c hc
    cases t with
    | nil => simp only [List.getLast?_singleton, Option.some.injEq] at hc; rw [← hc]; decide
    | cons b u =>
      rw [List.getLast?_cons_cons] at hc
      have := htlsp
      rw [hc] at this
      simpa using this
  rw [pyStrip_eq_self pyIsSpace ('/' :: t) (by intro c hc; simp at hc; rw [← hc]; decide) hlast]
  have hslash : pyStrip (fun c => c = '/') ('/' :: t) = t := by
    unfold pyStrip pyLStrip
    rw [List.dropWhile_cons]
    simp only [decide_True, if_true]
    rw [pyDropWhile_eq_self _ t (fun c hc => decide_eq_false fun hc' => hth (by rw [hc, hc'])),
      pyRStrip_eq_self _ t (by intro c hc; cases hdec : decide (c = '/') with
        | false => rfl
        | true => exact absurd (by rw [hc, of_decide_eq_true hdec]) htl)]
  rw [hslash,
    pyStrip_eq_self _ t
      (fun c hc => by
        cases hdec : decide (c = '\\') with
        | false => rfl
        | true => exact absurd (of_decide_eq_true hdec ▸ List.mem_of_mem_head? (by rw [hc]; rfl)) hbs)
      (fun c hc => by
        cases hdec : decide (c = '\\') with
        | false => rfl
        | true => exact absurd (of_decide_eq_true hdec ▸ List.mem_of_mem_getLast? (by rw [hc]; rfl)) hbs),
    pyReplaceChar_eq_self _ _ t hbs]

theorem cleanAssetName_canonical_fixed (r : ModResolver) (y : List Char)
    (h : canonicalAssetName y) : cleanAssetName r y = .ok y := by
  obtain ⟨hhead, hdot, hbs, hth, htl, htlsp, hcontent, hmods⟩ := h
  obtain ⟨t, rfl⟩ : ∃ t, y = '/' :: t := by
    cases y with
    | nil => simp at hhead
    | cons c t =>
      simp only [List.head?_cons, Option.some.injEq] at hhead
      exact ⟨t, by rw [hhead]⟩
  simp only [List.tail_cons] at hdot hbs hth htl htlsp hcontent hmods
  have hcut : cutClassSuffix ('/' :: t) = '/' :: t := by
    unfold cutClassSuffix
    rw [pyContains_eq_false (by
      intro hm
      rcases List.mem_cons.mp hm with h1 | h2
      · exact absurd h1 (by decide)
      · exact hdot h2)]
    rfl
  have hstrip := stripName_slash_cons t hbs hth htl htlsp
  unfold cleanAssetName
  rw [hcut, hstrip]
  unfold modSubstitute
  rw [if_neg hmods]
  show Except.ok ('/' :: ['/'].intercalate (contentToGame (List.splitOn '/' t))) =
    Except.ok ('/' :: t)
  unfold contentToGame
  rw [if_neg fun hand => hcontent hand.2]
  rw [List.intercalate_splitOn t '/']

/-- C3 counterexample: `clean_asset_name` is not idempotent on all inputs on
which it succeeds.  For the input `"a /"` (with a resolver that has no
registered mods) cleaning once yields `"/a "` — the trailing `/` is stripped
after whitespace stripping, exposing a trailing space — and cleaning that
result again yields `"/a"`, a different string.  Both calls succeed, so
`clean_asset_name (clean_asset_name x) ≠ clean_asset_name x` at `x = "a /"`. -/
theorem clean_asset_name_idempotence_counterexample :
    cleanAssetName emptyResolver "a /".toList = Except.ok "/a ".toList ∧
    cleanAssetName emptyResolver "/a ".toList = Except.ok "/a".toList ∧
    ("/a".toList : List Char) ≠ "/a ".toList := by
  refine ⟨by rfl, by rfl, by decide⟩

/-- C3 (amended): for every asset-name string `x` on which `clean_asset_name`
succeeds with result `y` (given a fixed mod resolver), if `y` is in canonical
shape — it has no `.` or `\`, its body neither starts nor ends with `/`, it
does not end in whitespace, its leading segment is not `content`
case-insensitively, and its mod segment (when the `/…/Mods/<id>/…` pattern
applies) is not numeric — then `clean_asset_name y = y`: normalizing an
already-canonical name is a no-op.  Without the canonical-shape restriction
idempotence fails (see the counterexample). -/
theorem clean_asset_name_idempotent_on_canonical (r : ModResolver) (x y : List Char)
    (_hxy : cleanAssetName r x = Except.ok y) (hy : canonicalAssetName y) :
    cleanAssetName r y = Except.ok y :=
  cleanAssetName_canonical_fixed r y hy

/-- Witness for C3 (amended) at the concrete input `"/Game/Mods/SomeMod/Thing.Thing_C"`. -/
theorem clean_asset_name_idempotent_on_canonical_witness :
    cleanAssetName emptyResolver "/Game/Mods/SomeMod/Thing".toList =
      Except.ok "/Game/Mods/SomeMod/Thing".toList :=
  clean_asset_name_idempotent_on_canonical emptyResolver
    "/Game/Mods/SomeMod/Thing.Thing_C".toList "/Game/Mods/SomeMod/Thing".toList
    (by rfl) (by decide)

/-! ### Cache-manager lemmas -/

theorem popKey_length_le {κ α : Type} [DecidableEq κ] (n : κ) (l : List (κ × α)) :
    (popKey n l).length ≤ l.length :=
  List.length_filter_le _ _

theorem popKey_eq_self_of_lookup_none {κ α : Type} [DecidableEq κ] (n : κ)
    (l : List (κ × α)) (h : lookupKey n l = none) : popKey n l = l := by
  induction l with
  | nil => rfl
  | cons p rest ih =>
    obtain ⟨k, v⟩ := p
    unfold lookupKey at h
    by_cases hk : k = n
    · rw [if_pos hk] at h; exact absurd h (by simp)
    · rw [if_neg hk] at h
      show List.filter _ ((k, v) :: rest) = _
      rw [List.filter_cons, if_pos (by simp [hk])]
      exact congrArg (List.cons (k, v)) (ih h)

theorem ucAdd_max_count (c : UsageCache) (n : List Char) (a : UAsset) :
    (ucAdd c n a).max_count = c.max_count := by
  unfold ucAdd ucMaybePurge ucPurge; split <;> rfl

theorem ucAdd_keep_count (c : UsageCache) (n : List Char) (a : UAsset) :
    (ucAdd c n a).keep_count = c.keep_count := by
  unfold ucAdd ucMaybePurge ucPurge; split <;> rfl

theorem ucAdd_length_invariant (c : UsageCache) (n : List Char) (a : UAsset)
    (hKM : c.keep_count < c.max_count) (h : c.entries.length + 1 ≤ c.max_count) :
    (ucAdd c n a).entries.length + 1 ≤ c.max_count := by
  have hins : (popKey n c.entries ++ [(n, a)]).length ≤ c.max_count := by
    rw [List.length_append, List.length_singleton]
    exact le_trans (Nat.add_le_add_right (popKey_length_le n c.entries) 1) h
  unfold ucAdd ucMaybePurge ucPurge
  split
  next htrig =>
    simp only [List.length_drop]
    rw [Nat.sub_sub_self (le_trans hKM.le htrig)]
    exact hKM
  next htrig =>
    exact Nat.succ_le_of_lt (lt_of_not_le htrig)

theorem ucAdd_triggered_count (c : UsageCache) (n : List Char) (a : UAsset)
    (hKM : c.keep_count < c.max_count) (htrig : ucAddTriggersPurge c n a) :
    ucGetCount (ucAdd c n a) = c.keep_count := by
  unfold ucGetCount ucAdd ucMaybePurge ucPurge
  split
  next =>
    simp only [List.length_drop]
    exact Nat.sub_sub_self (le_trans hKM.le htrig)
  next hcond => exact absurd htrig hcond

theorem ucApplyAdds_max_count (ops : List (List Char × UAsset)) (c : UsageCache) :
    (ucApplyAdds c ops).max_count = c.max_count := by
  induction ops generalizing c with
  | nil => rfl
  | cons op rest ih =>
    obtain ⟨n, a⟩ := op
    rw [ucApplyAdds, ih, ucAdd_max_count]

theorem ucApplyAdds_keep_count (ops : List (List Char × UAsset)) (c : UsageCache) :
    (ucApplyAdds c ops).keep_count = c.keep_count := by
  induction ops generalizing c with
  | nil => rfl
  | cons op rest ih =>
    obtain ⟨n, a⟩ := op
    rw [ucApplyAdds, ih, ucAdd_keep_count]

theorem ucApplyAdds_length_invariant (ops : List (List Char × UAsset)) (c : UsageCache)
    (hKM : c.keep_count < c.max_count) (h : c.entries.length + 1 ≤ c.max_count) :
    (ucApplyAdds c ops).entries.length + 1 ≤ c.max_count := by
  induction ops generalizing c with
  | nil => exact h
  | cons op rest ih =>
    obtain ⟨n, a⟩ := op
    rw [ucApplyAdds]
    have := ih (ucAdd c n a)
      (by rw [ucAdd_keep_count, ucAdd_max_count]; exact hKM)
      (by rw [ucAdd_max_count]; exact ucAdd_length_invariant c n a hKM h)
    rwa [ucAdd_max_count] at this

/-- C4: for a `UsageBasedCacheManager` configured with `max_count = M` and
`keep_count = K` where `K < M`: after any sequence of `add` operations from
the empty cache, the entry count returned by `get_count` never exceeds `M`,
and immediately after an `add` whose insert reaches `max_count` (triggering a
purge) the entry count is exactly `K`. -/
theorem usage_cache_count_bound (M K : Nat) (hKM : K < M)
    (ops : List (List Char × UAsset)) :
    ucGetCount (ucApplyAdds (ucEmpty M K) ops) ≤ M ∧
    ∀ (n : List Char) (a : UAsset),
      ucAddTriggersPurge (ucApplyAdds (ucEmpty M K) ops) n a →
      ucGetCount (ucAdd (ucApplyAdds (ucEmpty M K) ops) n a) = K := by
  have hM : 0 < M := Nat.lt_of_le_of_lt (Nat.zero_le K) hKM
  have hinv := ucApplyAdds_length_invariant ops (ucEmpty M K) hKM
    (Nat.succ_le_of_lt hM)
  constructor
  · exact le_trans (Nat.le_succ _) hinv
  · intro n a htrig
    have hkm2 : (ucApplyAdds (ucEmpty M K) ops).keep_count <
        (ucApplyAdds (ucEmpty M K) ops).max_count := by
      rw [ucApplyAdds_keep_count, ucApplyAdds_max_count]; exact hKM
    have := ucAdd_triggered_count _ n a hkm2 htrig
    rwa [ucApplyAdds_keep_count] at this

/-- Witness for C4 at `M = 2`, `K = 1`: two adds stay within the bound, and a
third add on a full cache triggers a purge leaving exactly one entry. -/
theorem usage_cache_count_bound_witness :
    ucGetCount (ucApplyAdds (ucEmpty 2 1)
      [("a".toList, sampleAsset), ("b".toList, sampleAsset)]) ≤ 2 ∧
    ucGetCount (ucAdd (ucApplyAdds (ucEmpty 2 1) [("a".toList, sampleAsset)])
      "b".toList sampleAsset) = 1 :=
  ⟨(usage_cache_count_bound 2 1 (by decide)
      [("a".toList, sampleAsset), ("b".toList, sampleAsset)]).1,
   (usage_cache_count_bound 2 1 (by decide) [("a".toList, sampleAsset)]).2
      "b".toList sampleAsset (by decide)⟩

/-- C5: for every cached name whose container was stored from a
deserialise-only (partial) parse, a `ContextAwareCacheWrapper.lookup` under a
context requiring a full parse returns `None` (a cache miss, triggering a
re-parse), even though the wrapped `UsageBasedCacheManager.lookup` on the same
key returns the entry. -/
theorem context_aware_lookup_misses_partial (c : UsageCache) (n : List Char) (a : UAsset)
    (hhit : (ucLookup c n).1 = some a) (hstored : a.mode = .deserialisedOnly) :
    (cawLookup c .fullyLinked n).1 = none := by
  rcases hu : ucLookup c n with ⟨r, c2⟩
  rw [hu] at hhit
  simp only at hhit
  subst hhit
  unfold cawLookup
  rw [hu]
  show (if isContextSatisfied a.mode .fullyLinked = true then (some a, c2)
    else ((none : Option UAsset), c2)).1 = none
  rw [hstored]
  simp [isContextSatisfied]

/-- Witness for C5: a one-entry cache holding a partial container. -/
theorem context_aware_lookup_misses_partial_witness :
    (ucLookup (⟨[("x".toList, samplePartialAsset)], 10, 2⟩ : UsageCache) "x".toList).1 =
      some samplePartialAsset ∧
    (cawLookup (⟨[("x".toList, samplePartialAsset)], 10, 2⟩ : UsageCache)
      .fullyLinked "x".toList).1 = none :=
  ⟨by rfl,
   context_aware_lookup_misses_partial _ "x".toList samplePartialAsset (by rfl) (by rfl)⟩

/-- C10: for every name not currently present in a `UsageBasedCacheManager`,
`remove(name)` — as reached through `AssetLoader.__delitem__` with the default
context-aware(usage-ordered) cache stack — returns normally without raising
(only a warning is logged) and leaves the cache mapping unchanged. -/
theorem remove_missing_name_is_noop (r : ModResolver) (c : UsageCache)
    (x n : List Char) (hclean : cleanAssetName r x = .ok n)
    (hmiss : lookupKey n c.entries = none) :
    loaderDelItem r c x = .ok c := by
  unfold loaderDelItem
  rw [hclean]
  show Except.ok (cawRemove c n) = Except.ok c
  unfold cawRemove ucRemove
  rw [popKey_eq_self_of_lookup_none n c.entries hmiss]

/-- Witness for C10: removing a name absent from a one-entry cache. -/
theorem remove_missing_name_is_noop_witness :
    loaderDelItem emptyResolver (⟨[("/Game/A".toList, sampleAsset)], 10, 2⟩ : UsageCache)
      "/Game/B".toList =
    .ok (⟨[("/Game/A".toList, sampleAsset)], 10, 2⟩ : UsageCache) :=
  remove_missing_name_is_noop emptyResolver _ "/Game/B".toList "/Game/B".toList
    (by rfl) (by rfl)

/-! ### `_load_asset` error handling and buffer discipline -/

/-- C1: for every asset name, if an exception is raised during the deserialise
or link phase inside `AssetLoader._load_asset`, the call raises
`AssetParseError` carrying that asset name with the underlying failure as its
cause, and the cache is left unchanged — the failed container is discarded,
not inserted (the buffer is also released exactly once, by the `finally`). -/
theorem load_asset_parse_error_leaves_cache_unchanged (env : LoadEnv) (cache : UsageCache)
    (assetname : List Char) (doNotLink cacheResult : Bool) (buf : Nat) (ext : List Char)
    (ex : Nat) (hraw : env.raw = .ok (buf, ext))
    (hfail : env.deserialiseResult = .error ex ∨
      ∃ exports0, env.deserialiseResult = .ok exports0 ∧ doNotLink = false ∧
        env.linkResult exports0 = .error ex) :
    loadAsset env cache assetname doNotLink cacheResult =
      (.error (.assetParseError assetname ex), cache, 1) := by
  unfold loadAsset
  rw [hraw]
  rcases hfail with hdes | ⟨e0, hdes, hnl, hlink⟩
  · rw [hdes]
  · rw [hdes, hnl]
    show (match env.linkResult e0 with
      | .error ex => (Except.error (AssetLoadError.assetParseError assetname ex), cache, 1)
      | .ok exports1 => _) = _
    rw [hlink]

/-- Witness for C1: a deserialise failure (exception id 7) surfaces as
`AssetParseError` and adds nothing to an empty cache. -/
theorem load_asset_parse_error_leaves_cache_unchanged_witness :
    loadAsset { twoLeafEnv with deserialiseResult := .error 7 } (ucEmpty 10 2)
      "/Game/Foo".toList false true =
    (.error (.assetParseError "/Game/Foo".toList 7), ucEmpty 10 2, 1) :=
  load_asset_parse_error_leaves_cache_unchanged _ _ "/Game/Foo".toList false true
    0 ".uasset".toList 7 (by rfl) (Or.inl (by rfl))

/-- C8: on every exit path of `_load_asset` on which the raw buffer was
acquired — normal return after linking, early return of a partial
(`doNotLink`) result, or propagation of an exception raised during parsing —
the buffer is released exactly once before the call exits. -/
theorem load_asset_releases_buffer_once (env : LoadEnv) (cache : UsageCache)
    (assetname : List Char) (doNotLink cacheResult : Bool) (buf : Nat) (ext : List Char)
    (hraw : env.raw = .ok (buf, ext)) :
    (loadAsset env cache assetname doNotLink cacheResult).2.2 = 1 := by
  unfold loadAsset
  rw [hraw]
  cases hdes : env.deserialiseResult with
  | error ex => rfl
  | ok exports0 =>
    cases doNotLink with
    | true => rfl
    | false =>
      cases hlink : env.linkResult exports0 with
      | error ex =>
        show (match env.linkResult exports0 with
          | .error ex => (Except.error (AssetLoadError.assetParseError assetname ex), cache, 1)
          | .ok exports1 => _).2.2 = 1
        rw [hlink]
      | ok exports1 =>
        show (match env.linkResult exports0 with
          | .error ex => (Except.error (AssetLoadError.assetParseError assetname ex), cache, 1)
          | .ok exports1 => _).2.2 = 1
        rw [hlink]

/-- Witness for C8: a successful linked load releases the buffer once. -/
theorem load_asset_releases_buffer_once_witness :
    (loadAsset twoLeafEnv (ucEmpty 10 2) "/Game/Foo".toList false true).2.2 = 1 :=
  load_asset_releases_buffer_once twoLeafEnv (ucEmpty 10 2) "/Game/Foo".toList false true
    0 ".uasset".toList (by rfl)

/-! ### Default-export selection -/

/-- C2 counterexample: for the container `/Game/Foo` whose linked export table
is `twoLeafExports` — two top-level exports `foo` and `FOO`, at least one of
which (`foo`, the first in table order) equals the leaf name `Foo`
case-insensitively, and none carrying the `Default__` marker — the claim says
the first matching export is selected; the code instead logs a warning and
leaves `default_export` absent (`None`), because the fallback assignment sits
in the `else:` branch of `if len(exports) > 1`. -/
theorem default_export_selection_counterexample :
    (leafMatches twoLeafExports "Foo".toList).head? =
      some ⟨"foo".toList, "None".toList, 1⟩ ∧
    defaultMarked twoLeafExports = [] ∧
    ((loadAsset twoLeafEnv (ucEmpty 10 2) "/Game/Foo".toList false false).1.map
      fun a => a.default_export) = .ok none :=
  ⟨by rfl, by rfl, by rfl⟩

/-- C2 (amended): default-export selection, applied once per container after
linking, considers only exports with no namespace: if at least one such
export's name starts with `Default__`, the first one in table order is
selected and its class recorded (logging a warning when more than one
matches); otherwise, when exactly zero or one top-level export equals the
container's leaf name case-insensitively, that export (or nothing) is
selected; when more than one matches, a warning is logged and `default_export`
is left absent.  A missing `default_export` is not an error. -/
theorem default_export_selection (exports : List ExportTableItem) (leafname : List Char) :
    (defaultMarked exports ≠ [] →
      selectDefaultExport exports leafname =
        ((defaultMarked exports).head?,
         ((defaultMarked exports).head?).map fun e => e.klass)) ∧
    (defaultMarked exports = [] → (leafMatches exports leafname).length ≤ 1 →
      selectDefaultExport exports leafname = ((leafMatches exports leafname).head?, none)) ∧
    (defaultMarked exports = [] → 1 < (leafMatches exports leafname).length →
      selectDefaultExport exports leafname = (none, none)) := by
  refine ⟨?_, ?_, ?_⟩
  · intro hne
    unfold selectDefaultExport
    cases hd : (defaultMarked exports).head? with
    | none => exact absurd (List.head?_eq_none_iff.mp hd) hne
    | some e => rfl
  · intro hempty hlen
    unfold selectDefaultExport
    rw [hempty]
    show (if 1 < (leafMatches exports leafname).length then (none, none)
      else ((leafMatches exports leafname).head?, none)) = _
    rw [if_neg (not_lt_of_le hlen)]
  · intro hempty hlen
    unfold selectDefaultExport
    rw [hempty]
    show (if 1 < (leafMatches exports leafname).length then (none, none)
      else ((leafMatches exports leafname).head?, none)) = _
    rw [if_pos hlen]

/-- Witness for C2 (amended): a lone `Default__X` top-level export is selected
with its class recorded. -/
theorem default_export_selection_witness :
    selectDefaultExport [⟨"Default__X".toList, "None".toList, 5⟩] "Foo".toList =
      (some ⟨"Default__X".toList, "None".toList, 5⟩, some 5) := by
  have h := (default_export_selection [⟨"Default__X".toList, "None".toList, 5⟩]
    "Foo".toList).1 (by decide)
  rw [h]
  rfl

/-! ### Struct-size integrity check -/

/-- C6: for every input stream in which the stored struct-size constant read
by the instanced-geometry blob parser after the LOD loop is not 80, the
parser fails (the `assert … == 80` raises, surfaced by the loader as
`AssetParseError` per `load_asset_parse_error_leaves_cache_unchanged`'s
source lines), and no `visible_instances` value is ever produced. -/
theorem struct_size_integrity_check (s : Stream) (v : Nat)
    (hread : storedStructSize s = some v) (hv : v ≠ 80) :
    instancedSMCDeserialise s = .error .assertFailed ∧
    ∀ instances, instancedSMCDeserialise s ≠ .ok instances := by
  have hmain : instancedSMCDeserialise s = .error .assertFailed := by
    unfold storedStructSize at hread
    unfold instancedSMCDeserialise
    cases h1 : readUInt32 s with
    | error e => rw [h1] at hread; exact absurd hread (by simp)
    | ok p1 =>
      obtain ⟨lod_count, s1⟩ := p1
      simp only [h1] at hread ⊢
      cases h2 : readLODs lod_count s1 with
      | error e => rw [h2] at hread; exact absurd hread (by simp)
      | ok s2 =>
        simp only [h2] at hread ⊢
        cases h3 : readUInt32 s2 with
        | error e => rw [h3] at hread; exact absurd hread (by simp)
        | ok p3 =>
          obtain ⟨size, s3⟩ := p3
          simp only [h3, Option.some.injEq] at hread ⊢
          rw [if_neg (fun h80 => hv (hread ▸ h80))]
  exact ⟨hmain, fun instances h => by rw [hmain] at h; exact Except.noConfusion h⟩

/-- Witness for C6: a stream with zero LODs and a stored struct size of 79. -/
theorem struct_size_integrity_check_witness :
    instancedSMCDeserialise ⟨[0, 0, 0, 0, 79, 0, 0, 0], 0⟩ = .error .assertFailed :=
  (struct_size_integrity_check ⟨[0, 0, 0, 0, 79, 0, 0, 0], 0⟩ 79 (by rfl) (by decide)).1

/-! ### Association-list dictionary lemmas -/

theorem lookupKey_dictSet_self {κ α : Type} [DecidableEq κ] (k : κ) (v : α)
    (l : List (κ × α)) : lookupKey k (dictSet k v l) = some v := by
  induction l with
  | nil => simp [dictSet, lookupKey]
  | cons p rest ih =>
    obtain ⟨k2, v2⟩ := p
    unfold dictSet
    by_cases h : k2 = k
    · rw [if_pos h]
      unfold lookupKey
      rw [if_pos rfl]
    · rw [if_neg h]
      unfold lookupKey
      rw [if_neg h]
      exact ih

theorem lookupKey_dictSet_ne {κ α : Type} [DecidableEq κ] {k q : κ} (v : α)
    (l : List (κ × α)) (h : k ≠ q) : lookupKey q (dictSet k v l) = lookupKey q l := by
  induction l with
  | nil => simp [dictSet, lookupKey, h]
  | cons p rest ih =>
    obtain ⟨k2, v2⟩ := p
    unfold dictSet
    by_cases h2 : k2 = k
    · rw [if_pos h2]
      show (if k = q then some v else lookupKey q rest) =
        (if k2 = q then some v2 else lookupKey q rest)
      rw [if_neg h, if_neg (by rw [h2]; exact h)]
    · rw [if_neg h2]
      show (if k2 = q then some v2 else lookupKey q (dictSet k v rest)) =
        (if k2 = q then some v2 else lookupKey q rest)
      by_cases h3 : k2 = q
      · rw [if_pos h3, if_pos h3]
      · rw [if_neg h3, if_neg h3]
        exact ih

theorem lookupKey_dictModify_self {κ α : Type} [DecidableEq κ] (k : κ) (f : α → α)
    (l : List (κ × α)) : lookupKey k (dictModify k f l) = (lookupKey k l).map f := by
  induction l with
  | nil => rfl
  | cons p rest ih =>
    obtain ⟨k2, v⟩ := p
    unfold dictModify
    by_cases h : k2 = k
    · rw [if_pos h]
      show (if k2 = k then some (f v) else lookupKey k rest) =
        ((if k2 = k then some v else lookupKey k rest)).map f
      rw [if_pos h, if_pos h]
      rfl
    · rw [if_neg h]
      show (if k2 = k then some v else lookupKey k (dictModify k f rest)) =
        ((if k2 = k then some v else lookupKey k rest)).map f
      rw [if_neg h, if_neg h]
      exact ih

theorem lookupKey_dictModify_ne {κ α : Type} [DecidableEq κ] {k q : κ} (f : α → α)
    (l : List (κ × α)) (h : k ≠ q) : lookupKey q (dictModify k f l) = lookupKey q l := by
  induction l with
  | nil => rfl
  | cons p rest ih =>
    obtain ⟨k2, v⟩ := p
    unfold dictModify
    by_cases h2 : k2 = k
    · rw [if_pos h2]
      show (if k2 = q then some (f v) else lookupKey q rest) =
        (if k2 = q then some v else lookupKey q rest)
      have hq2 : k2 ≠ q := by rw [h2]; exact h
      rw [if_neg hq2, if_neg hq2]
    · rw [if_neg h2]
      show (if k2 = q then some v else lookupKey q (dictModify k f rest)) =
        (if k2 = q then some v else lookupKey q rest)
      by_cases h3 : k2 = q
      · rw [if_pos h3, if_pos h3]
      · rw [if_neg h3, if_neg h3]
        exact ih

/-! ### Proxy update lemmas -/

theorem applyFieldValues_not_mentioned {α : Type} (fv fld : List (Nat × α)) (idx : Nat)
    (h : ∀ p ∈ fv, p.1 ≠ idx) :
    lookupKey idx (applyFieldValues fv fld) = lookupKey idx fld := by
  induction fv generalizing fld with
  | nil => rfl
  | cons p rest ih =>
    obtain ⟨i, v⟩ := p
    show lookupKey idx (applyFieldValues rest (dictSet i v fld)) = lookupKey idx fld
    rw [ih (dictSet i v fld) (fun q hq => h q (List.mem_cons_of_mem _ hq)),
      lookupKey_dictSet_ne v fld (h (i, v) (List.mem_cons_self _ _))]

theorem applyFieldValues_mentioned {α : Type} (fv : List (Nat × α)) (idx : Nat) (v : α)
    (hmem : (idx, v) ∈ fv) (hnd : (fv.map Prod.fst).Nodup) (fld : List (Nat × α)) :
    lookupKey idx (applyFieldValues fv fld) = some v := by
  induction fv generalizing fld with
  | nil => exact absurd hmem (List.not_mem_nil _)
  | cons p rest ih =>
    obtain ⟨i, w⟩ := p
    rw [List.map_cons, List.nodup_cons] at hnd
    rcases List.mem_cons.mp hmem with heq | hrest
    · cases heq
      show lookupKey idx (applyFieldValues rest (dictSet idx v fld)) = some v
      rw [applyFieldValues_not_mentioned rest _ idx
          (fun q hq hqe => hnd.1 (List.mem_map.mpr ⟨q, hq, hqe⟩)),
        lookupKey_dictSet_self]
    · show lookupKey idx (applyFieldValues rest (dictSet i w fld)) = some v
      exact ih hrest hnd.2 (dictSet i w fld)

/-- The step of `proxyUpdate` for one overridden field. -/
theorem proxyUpdate_step_other_key {α : Type} (td : ProxyFields α) (f0 : List Char)
    (fv0 : List (Nat × α)) (field : List Char) (hne : f0 ≠ field) :
    lookupKey field
      (dictModify f0 (applyFieldValues fv0)
        (if (lookupKey f0 td).isNone then dictSet f0 ([] : List (Nat × α)) td else td)) =
    lookupKey field td := by
  rw [lookupKey_dictModify_ne _ _ hne]
  by_cases hn : (lookupKey f0 td).isNone
  · rw [if_pos hn, lookupKey_dictSet_ne _ _ hne]
  · rw [if_neg hn]

theorem proxyUpdate_not_mentioned {α : Type} (values : ProxyFields α)
    (inst : ProxyFields α) (field : List Char) (h : ∀ p ∈ values, p.1 ≠ field) :
    lookupKey field (proxyUpdate inst values) = lookupKey field inst := by
  induction values generalizing inst with
  | nil => rfl
  | cons nv rest ih =>
    obtain ⟨f0, fv0⟩ := nv
    show lookupKey field (proxyUpdate
      (dictModify f0 (applyFieldValues fv0)
        (if (lookupKey f0 inst).isNone then dictSet f0 ([] : List (Nat × α)) inst else inst))
      rest) = lookupKey field inst
    rw [ih _ (fun q hq => h q (List.mem_cons_of_mem _ hq)),
      proxyUpdate_step_other_key inst f0 fv0 field (h (f0, fv0) (List.mem_cons_self _ _))]

theorem proxyUpdate_field_lookup {α : Type} (values : ProxyFields α) (field : List Char)
    (fvs : List (Nat × α)) (hmem : (field, fvs) ∈ values)
    (hnd : (values.map Prod.fst).Nodup) (inst : ProxyFields α) :
    lookupKey field (proxyUpdate inst values) =
      some (applyFieldValues fvs ((lookupKey field inst).getD [])) := by
  induction values generalizing inst with
  | nil => exact absurd hmem (List.not_mem_nil _)
  | cons nv rest ih =>
    obtain ⟨f0, fv0⟩ := nv
    rw [List.map_cons, List.nodup_cons] at hnd
    rcases List.mem_cons.mp hmem with heq | hrest
    · cases heq
      show lookupKey field (proxyUpdate
        (dictModify field (applyFieldValues fvs)
          (if (lookupKey field inst).isNone then dictSet field ([] : List (Nat × α)) inst
           else inst))
        rest) = some (applyFieldValues fvs ((lookupKey field inst).getD []))
      rw [proxyUpdate_not_mentioned rest _ field
          (fun q hq hqe => hnd.1 (List.mem_map.mpr ⟨q, hq, hqe⟩)),
        lookupKey_dictModify_self]
      cases hl : lookupKey field inst with
      | none =>
        rw [if_pos (by rfl), lookupKey_dictSet_self]
        rfl
      | some b =>
        rw [if_neg (by simp), hl]
        rfl
    · have hf0 : f0 ≠ field := fun he =>
        hnd.1 (List.mem_map.mpr ⟨(field, fvs), hrest, he.symm⟩)
      show lookupKey field (proxyUpdate
        (dictModify f0 (applyFieldValues fv0)
          (if (lookupKey f0 inst).isNone then dictSet f0 ([] : List (Nat × α)) inst else inst))
        rest) = some (applyFieldValues fvs ((lookupKey field inst).getD []))
      rw [ih hrest hnd.2 _, proxyUpdate_step_other_key inst f0 fv0 field hf0]

/-- C9: `UEProxyStructure.update` is a tolerant merge and never fails: it is a
total function; each override value is stored at its `(field, index)` — the
field's map is created when the field was absent from the type's defaults —
and every default index not mentioned in the overrides remains present with
its default value (overrides never remove a default index).  The proxy
instance starts as `proxyInit defaults = defaults`. -/
theorem proxy_update_tolerant_merge (α : Type) (defaults values : ProxyFields α) :
    (∀ field fvs idx v, (field, fvs) ∈ values → (idx, v) ∈ fvs →
        (values.map Prod.fst).Nodup → (fvs.map Prod.fst).Nodup →
        ∃ fld, lookupKey field (proxyUpdate (proxyInit defaults) values) = some fld ∧
          lookupKey idx fld = some v) ∧
    (∀ field dmap idx dv, lookupKey field (proxyInit defaults) = some dmap →
        lookupKey idx dmap = some dv →
        (values.map Prod.fst).Nodup →
        (∀ p ∈ values, p.1 = field → ∀ q ∈ p.2, q.1 ≠ idx) →
        ∃ fld, lookupKey field (proxyUpdate (proxyInit defaults) values) = some fld ∧
          lookupKey idx fld = some dv) := by
  constructor
  · intro field fvs idx v hmemv hmemi hndv hndi
    refine ⟨applyFieldValues fvs ((lookupKey field (proxyInit defaults)).getD []),
      proxyUpdate_field_lookup values field fvs hmemv hndv _, ?_⟩
    exact applyFieldValues_mentioned fvs idx v hmemi hndi _
  · intro field dmap idx dv hfield hidx hndv hnot
    by_cases hmention : ∀ p ∈ values, p.1 ≠ field
    · exact ⟨dmap, by rw [proxyUpdate_not_mentioned values _ field hmention]; exact hfield,
        hidx⟩
    · push_neg at hmention
      obtain ⟨p, hp, hpf⟩ := hmention
      obtain ⟨f0, fvs⟩ := p
      simp only at hpf
      subst hpf
      refine ⟨applyFieldValues fvs ((lookupKey f0 (proxyInit defaults)).getD []),
        proxyUpdate_field_lookup values f0 fvs hp hndv _, ?_⟩
      rw [applyFieldValues_not_mentioned fvs _ idx (hnot (f0, fvs) hp rfl)]
      rw [hfield]
      exact hidx

/-- Witness for C9: a proxy defaulting `Health[0] = 100`, updated with an
override for `Health[1]` and a new field `Armor[0]`; the override lands, the
new field is created, and the untouched default survives. -/
theorem proxy_update_tolerant_merge_witness :
    (∃ fld, lookupKey "Armor".toList
        (proxyUpdate (proxyInit [("Health".toList, [(0, 100)])])
          [("Health".toList, [(1, 50)]), ("Armor".toList, [(0, 7)])]) = some fld ∧
      lookupKey 0 fld = some 7) ∧
    (∃ fld, lookupKey "Health".toList
        (proxyUpdate (proxyInit [("Health".toList, [(0, 100)])])
          [("Health".toList, [(1, 50)]), ("Armor".toList, [(0, 7)])]) = some fld ∧
      lookupKey 0 fld = some 100) :=
  ⟨(proxy_update_tolerant_merge Nat [("Health".toList, [(0, 100)])]
      [("Health".toList, [(1, 50)]), ("Armor".toList, [(0, 7)])]).1
    "Armor".toList [(0, 7)] 0 7 (by decide) (by decide) (by decide) (by decide),
   (proxy_update_tolerant_merge Nat [("Health".toList, [(0, 100)])]
      [("Health".toList, [(1, 50)]), ("Armor".toList, [(0, 7)])]).2
    "Health".toList [(0, 100)] 0 100 (by rfl) (by rfl) (by decide) (by decide)⟩

/-! ### Path-match memo -/

/-- A memo hit short-circuits the whole function. -/
theorem path_match_memo_hit (fs : FileSystem) (memo : List (FsPath × FsPath))
    (path q : FsPath) (h : lookupKey path memo = some q) :
    findCaseInsensitivePathMatch fs memo path = (some q, memo) := by
  unfold findCaseInsensitivePathMatch
  rw [h]

/-- Case analysis on `findCaseInsensitivePathMatch`: positive results are
memoized under the queried path; negative results leave the memo untouched. -/
theorem path_match_result_cases (fs : FileSystem) (memo : List (FsPath × FsPath))
    (path : FsPath) :
    (∀ q, (findCaseInsensitivePathMatch fs memo path).1 = some q →
      lookupKey path (findCaseInsensitivePathMatch fs memo path).2 = some q) ∧
    ((findCaseInsensitivePathMatch fs memo path).1 = none →
      (findCaseInsensitivePathMatch fs memo path).2 = memo) := by
  unfold findCaseInsensitivePathMatch
  cases hm : lookupKey path memo with
  | some cached =>
    refine ⟨fun q hq => ?_, fun hn => by simp at hn⟩
    simp only [Option.some.injEq] at hq
    rw [← hq]
    exact hm
  | none =>
    cases hex : fs.pathExists path with
    | true =>
      simp only [if_true]
      refine ⟨fun q hq => ?_, fun hn => by simp at hn⟩
      simp only [Option.some.injEq] at hq
      rw [← hq]
      exact lookupKey_dictSet_self path path memo
    | false =>
      simp only [Bool.false_eq_true, if_false]
      cases hf : (fs.dirEntries (List.dropLast path)).find?
          (fun found => pyLower found = pyLower (List.getLastD path [])) with
      | some found =>
        refine ⟨fun q hq => ?_, fun hn => by simp at hn⟩
        simp only [Option.some.injEq] at hq
        rw [← hq]
        exact lookupKey_dictSet_self path _ memo
      | none => exact ⟨fun q hq => by simp at hq, fun _ => rfl⟩

/-- C7 counterexample: on a filesystem with no files, a query for the path
`a` finds no case-insensitive match, returns `None`, and leaves the memo
empty — in particular nothing is recorded under the queried path, so a
repeated identical query re-scans the directory.  The claim requires every
call, including this negative one, to record its result in the memo. -/
theorem path_match_memo_counterexample :
    (findCaseInsensitivePathMatch emptyFs [] ["a".toList]).1 = none ∧
    (findCaseInsensitivePathMatch emptyFs [] ["a".toList]).2 = [] ∧
    lookupKey ["a".toList] (findCaseInsensitivePathMatch emptyFs [] ["a".toList]).2 = none :=
  ⟨rfl, rfl, rfl⟩

/-- C7 (amended): every call to `find_caseinsensitive_path_match` that finds a
match (the exact-case hit or the first case-insensitive sibling) records that
result in the path-match memo keyed by the exact path queried, and a repeated
identical query is then answered from the memo, without re-scanning the
directory and without further memo changes.  A negative result, however, is
not recorded: the function returns `None` leaving the memo unchanged, so a
repeated miss re-scans the directory. -/
theorem path_match_memoization (fs : FileSystem) (memo : List (FsPath × FsPath))
    (path : FsPath) :
    (∀ q, (findCaseInsensitivePathMatch fs memo path).1 = some q →
      lookupKey path (findCaseInsensitivePathMatch fs memo path).2 = some q ∧
      findCaseInsensitivePathMatch fs (findCaseInsensitivePathMatch fs memo path).2 path =
        (some q, (findCaseInsensitivePathMatch fs memo path).2)) ∧
    ((findCaseInsensitivePathMatch fs memo path).1 = none →
      (findCaseInsensitivePathMatch fs memo path).2 = memo) := by
  obtain ⟨h1, h2⟩ := path_match_result_cases fs memo path
  exact ⟨fun q hq => ⟨h1 q hq, path_match_memo_hit fs _ path q (h1 q hq)⟩, h2⟩

/-- Witness for C7 (amended): an on-disk `Foo.uasset` queried as
`foo.uasset` resolves case-insensitively; the result is memoized and the
repeated query is served from the memo. -/
theorem path_match_memoization_witness :
    lookupKey ["foo.uasset".toList]
      (findCaseInsensitivePathMatch oneFileFs [] ["foo.uasset".toList]).2 =
      some ["Foo.uasset".toList] ∧
    findCaseInsensitivePathMatch oneFileFs
      (findCaseInsensitivePathMatch oneFileFs [] ["foo.uasset".toList]).2
      ["foo.uasset".toList] =
      (some ["Foo.uasset".toList],
       (findCaseInsensitivePathMatch oneFileFs [] ["foo.uasset".toList]).2) :=
  (path_match_memoization oneFileFs [] ["foo.uasset".toList]).1
    ["Foo.uasset".toList] (by rfl)

end Purlovia
